import Mathlib

/-!
Verification of the Insolar peer-to-peer network core against its
natural-language specification.

The definitions below are shallow embeddings of the Go sources:
byte slices become `List Nat`, machine integers become `Nat`/`Int` with
explicit two's-complement wrapping where Go overflow matters, maps become
functions into `Option`, and fallible code returns `Except` values.
Functions whose defining code lives outside the provided sources (the
`routing`, `relay`, `entropy` and `nodekeeper` packages) are modelled from
the specification and carry a doc comment saying so.
-/

/-! ## Data model -/

/-- A node reference / ID hash (`core.RecordRef`, `id.ID` hash): a byte slice. -/
abbrev Ref := List Nat

/-- `core.RecordID`: carries a pulse number and a hash (only the parts the
jet coordinator reads: `Pulse()` and `Hash()`). -/
structure RecordID where
  pulse : Nat
  hash : List Nat

/-! ## Deterministic role selection (`jetcoordinator`) -/

/-- `circleXOR` from `jetcoordinator`: byte-wise XOR of `value` with `src`,
cycling `src` when it is shorter (`result[i] = value[i] ^ src[i % len(src)]`). -/
def circleXOR (value src : List Nat) : List Nat :=
  (List.range value.length).map (fun i => value.getD i 0 ^^^ src.getD (i % src.length) 0)

/-- Hardcoded role counts from `jetcoordinator` (`VirtualValidatorCount = 3`). -/
def VirtualValidatorCount : Nat := 3

/-- `MaterialValidatorCount = 3`. -/
def MaterialValidatorCount : Nat := 3

/-- `VirtualExecutorCount = 1`. -/
def VirtualExecutorCount : Nat := 1

/-- `MaterialExecutorCount = 1`. -/
def MaterialExecutorCount : Nat := 1

/-- `bytes.Compare a b < 0`: lexicographic comparison of byte slices, a
proper prefix being smaller. -/
def bytesLt : List Nat → List Nat → Bool
  | [], [] => false
  | [], _ :: _ => true
  | _ :: _, [] => false
  | a :: as, b :: bs => if a < b then true else if b < a then false else bytesLt as bs

/-- The stable sort of candidate refs by `bytes.Compare` performed at the top
of `getRefs` (`sort.SliceStable(values, ...)`). -/
def sortByID (values : List Ref) : List Ref :=
  List.mergeSort values (fun a b => !bytesLt b a)

/-- Folds entropy bytes into a seed number (part of the spec-modelled
entropy-based selection below). -/
def entropySeed (e : List Nat) : Nat :=
  e.foldl (fun acc b => acc * 256 + b) 0

/-- One rotation step of the spec-modelled draw: `fuel` bounds recursion by
the list length. -/
def drawPermAux : Nat → Nat → List Ref → List Ref
  | 0, _, _ => []
  | _ + 1, _, [] => []
  | fuel + 1, seed, a :: as =>
    match (a :: as).rotate (seed % (a :: as).length) with
    | [] => []
    | x :: xs => x :: drawPermAux fuel (seed + 1) xs

/-- The deterministic draw order over candidates induced by an entropy seed:
a permutation of the candidate list. -/
def drawPerm (seed : Nat) (l : List Ref) : List Ref :=
  drawPermAux l.length seed l

/-- Modelled from the spec: `entropy.SelectByEntropy(scheme, e, values, count)`
(package `utils/entropy`, not among the sources) — "deterministically draw
`n` distinct candidates using `mix` as entropy" (hash-based sampling without
replacement supplied by the crypto scheme).  Drawing more distinct candidates
than exist fails. -/
def SelectByEntropy (e : List Nat) (values : List Ref) (count : Nat) :
    Except String (List Ref) :=
  if values.length < count then .error "count value should be less than values size"
  else .ok ((drawPerm (entropySeed e) values).take count)

/-- `getRefs` from `jetcoordinator`: stable-sort candidates by their ID bytes,
then select `count` of them by entropy. -/
def getRefs (e : List Nat) (values : List Ref) (count : Nat) : Except String (List Ref) :=
  SelectByEntropy e (sortByID values) count

/-- The jet coordinator's injected dependencies (`NodeStorage`, `PulseStorage`,
`PulseTracker`, `JetStorage`), abstracted as functions: active nodes by static
role, current pulse and entropy, historical entropy, and the jet tree. -/
structure CoordEnv where
  virtuals : Nat → Except String (List Ref)
  lights : Nat → Except String (List Ref)
  heavies : Nat → Except String (List Ref)
  currentPulse : Nat
  currentEntropy : List Nat
  trackerEntropy : Nat → Except String (List Nat)
  jetTreeFind : Nat → RecordID → RecordID
  jetPrefix : RecordID → List Nat

/-- `jetcoordinator.entropy`: if the requested pulse is the current pulse use
in-memory entropy, else consult the pulse tracker. -/
def entropy (env : CoordEnv) (pulse : Nat) : Except String (List Nat) :=
  if env.currentPulse == pulse then .ok env.currentEntropy
  else env.trackerEntropy pulse

/-- `core.PulseNumberJet` (package `core`, not among the sources): the
distinguished pulse number marking jet record IDs; its concrete value is
irrelevant to the theorems below. -/
def PulseNumberJet : Nat := 1

/-- `virtualsForObject`: fetch active virtual nodes, require at least one,
fetch entropy, then `getRefs(circleXOR(ent, objID.Hash()), candidates, count)`. -/
def virtualsForObject (env : CoordEnv) (objID : RecordID) (pulse count : Nat) :
    Except String (List Ref) :=
  match env.virtuals pulse with
  | .error e => .error e
  | .ok candidates =>
    if candidates.isEmpty then .error "no active virtual nodes"
    else
      match entropy env pulse with
      | .error e => .error e
      | .ok ent => getRefs (circleXOR ent objID.hash) candidates count

/-- `lightMaterialsForJet`: same as `virtualsForObject` but over light
material nodes, salted with the jet prefix. -/
def lightMaterialsForJet (env : CoordEnv) (jetID : RecordID) (pulse count : Nat) :
    Except String (List Ref) :=
  match env.lights pulse with
  | .error e => .error e
  | .ok candidates =>
    if candidates.isEmpty then .error "no active light nodes"
    else
      match entropy env pulse with
      | .error e => .error e
      | .ok ent => getRefs (circleXOR ent (env.jetPrefix jetID)) candidates count

/-- `VirtualExecutorForObject`: first slot of the `VirtualExecutorCount`-draw
(`&nodes[0]`; indexing an empty result would panic in Go, modelled as an error). -/
def VirtualExecutorForObject (env : CoordEnv) (objID : RecordID) (pulse : Nat) :
    Except String Ref :=
  match virtualsForObject env objID pulse VirtualExecutorCount with
  | .error e => .error e
  | .ok (n :: _) => .ok n
  | .ok [] => .error "panic: index out of range"

/-- `VirtualValidatorsForObject`: draw `VirtualValidatorCount +
VirtualExecutorCount` candidates and skip the first `VirtualExecutorCount`
slots. -/
def VirtualValidatorsForObject (env : CoordEnv) (objID : RecordID) (pulse : Nat) :
    Except String (List Ref) :=
  match virtualsForObject env objID pulse (VirtualValidatorCount + VirtualExecutorCount) with
  | .error e => .error e
  | .ok nodes => .ok (nodes.drop VirtualExecutorCount)

/-- `LightExecutorForJet`: first slot of the `MaterialExecutorCount`-draw. -/
def LightExecutorForJet (env : CoordEnv) (jetID : RecordID) (pulse : Nat) :
    Except String Ref :=
  match lightMaterialsForJet env jetID pulse MaterialExecutorCount with
  | .error e => .error e
  | .ok (n :: _) => .ok n
  | .ok [] => .error "panic: index out of range"

/-- `LightValidatorsForJet`: skip the first `MaterialExecutorCount` slots of a
`MaterialValidatorCount + MaterialExecutorCount`-draw. -/
def LightValidatorsForJet (env : CoordEnv) (jetID : RecordID) (pulse : Nat) :
    Except String (List Ref) :=
  match lightMaterialsForJet env jetID pulse (MaterialValidatorCount + MaterialExecutorCount) with
  | .error e => .error e
  | .ok nodes => .ok (nodes.drop MaterialExecutorCount)

/-- `LightExecutorForObject`: resolve the object's jet through the jet tree,
then `LightExecutorForJet`. -/
def LightExecutorForObject (env : CoordEnv) (objID : RecordID) (pulse : Nat) :
    Except String Ref :=
  LightExecutorForJet env (env.jetTreeFind pulse objID) pulse

/-- `LightValidatorsForObject`: resolve the object's jet, then
`LightValidatorsForJet`. -/
def LightValidatorsForObject (env : CoordEnv) (objID : RecordID) (pulse : Nat) :
    Except String (List Ref) :=
  LightValidatorsForJet env (env.jetTreeFind pulse objID) pulse

/-- `Heavy`: one heavy-material node selected with the raw entropy (no salt). -/
def Heavy (env : CoordEnv) (pulse : Nat) : Except String Ref :=
  match env.heavies pulse with
  | .error e => .error e
  | .ok candidates =>
    if candidates.isEmpty then .error "no active heavy nodes"
    else
      match entropy env pulse with
      | .error e => .error e
      | .ok ent =>
        match getRefs ent candidates 1 with
        | .error e => .error e
        | .ok (n :: _) => .ok n
        | .ok [] => .error "panic: index out of range"

/-- `core.DynamicRole`: the five roles `QueryRole` handles. -/
inductive DynamicRole
  | virtualExecutor
  | virtualValidator
  | lightExecutor
  | lightValidator
  | heavyExecutor

/-- `QueryRole`: dispatch on the dynamic role, returning the responsible node
refs. -/
def QueryRole (env : CoordEnv) (role : DynamicRole) (objID : RecordID) (pulse : Nat) :
    Except String (List Ref) :=
  match role with
  | .virtualExecutor =>
    match VirtualExecutorForObject env objID pulse with
    | .error e => .error e
    | .ok n => .ok [n]
  | .virtualValidator => VirtualValidatorsForObject env objID pulse
  | .lightExecutor =>
    if objID.pulse = PulseNumberJet then
      match LightExecutorForJet env objID pulse with
      | .error e => .error e
      | .ok n => .ok [n]
    else
      match LightExecutorForObject env objID pulse with
      | .error e => .error e
      | .ok n => .ok [n]
  | .lightValidator => LightValidatorsForObject env objID pulse
  | .heavyExecutor =>
    match Heavy env pulse with
    | .error e => .error e
    | .ok n => .ok [n]

/-- `IsAuthorized`: query the role's nodes and scan for the given node
(`n == node` over `core.RecordRef` byte arrays); errors propagate. -/
def IsAuthorized (env : CoordEnv) (role : DynamicRole) (objID : RecordID)
    (pulse : Nat) (node : Ref) : Except String Bool :=
  match QueryRole env role objID pulse with
  | .error e => .error e
  | .ok nodes => .ok (nodes.contains node)

/-! ## Kademlia DHT (`network/host/dht.go`) -/

/-- `routing.MaxContactsInBucket` = 20 (Kademlia's K, also the ID hash length). -/
def MaxContactsInBucket : Nat := 20

/-- XOR distance between two byte-slice IDs, as the big-endian number
`dht.GetDistance` (`new(big.Int).Xor`) computes. -/
def xorDist (a b : List Nat) : Nat :=
  (List.zipWith (fun x y => x ^^^ y) a b).foldl (fun acc x => acc * 256 + x) 0

/-- Modelled from the spec: the score used by `getExpirationTime` — "let
`score` be the count of nodes known to be at-least-as-close to `k` as self"
(the `routing` package that walks the buckets is not among the sources). -/
def scoreFor (contacts : List (List Nat)) (selfHash key : List Nat) : Nat :=
  (contacts.filter (fun c => xorDist c key ≤ xorDist selfHash key)).length

/-- Two's-complement wrap-around of Go `int64` arithmetic. -/
def int64wrap (n : Int) : Int := (n + 2 ^ 63) % 2 ^ 64 - 2 ^ 63

/-- `int64(math.Exp(float64(n)))` for the integer arguments `n ≤ 20` that
`getExpirationTime` can produce: the floor of `e^n` (the float64 error of
`math.Exp` is many orders of magnitude smaller than the distance of each
`e^n` to its nearest integer, so the truncation is exact). -/
def expFloor (n : Nat) : Nat :=
  [1, 2, 7, 20, 54, 148, 403, 1096, 2980, 8103, 22026, 59874, 162754,
   442413, 1202604, 3269017, 8886110, 24154952, 65659969, 178482300,
   485165195].getD n 485165195

/-- The duration (in nanoseconds, Go `time.Duration`) that `getExpirationTime`
adds to `time.Now()`, as a function of the score and of
`options.ExpirationTime` in nanoseconds: with `score == 0` treated as `1`,
a score strictly above `MaxContactsInBucket` gives the base TTL; otherwise
the code computes `seconds := day.Nanoseconds() * int64(math.Exp(float64(K/score)))`
(integer division inside the float conversion) and returns
`time.Second * time.Duration(seconds)`, both products wrapping as `int64`. -/
def getExpirationOffset (score0 : Nat) (ttlNs : Int) : Int :=
  let score := if score0 == 0 then 1 else score0
  if MaxContactsInBucket < score then ttlNs
  else int64wrap (1000000000 * int64wrap (ttlNs * (expFloor (MaxContactsInBucket / score) : Int)))

/-- `getExpirationTime`, composed with the spec-modelled score. -/
def getExpirationTime (contacts : List (List Nat)) (selfHash key : List Nat)
    (ttlNs : Int) : Int :=
  getExpirationOffset (scoreFor contacts selfHash key) ttlNs

/-- The multiplier the non-base branch applies to the TTL. -/
def expirationFactor (score0 : Nat) : Nat :=
  expFloor (MaxContactsInBucket / (if score0 == 0 then 1 else score0))

/-- The default `options.ExpirationTime` (86410 s) in nanoseconds. -/
def defaultExpirationNs : Int := 86410 * 1000000000

/-! ### Authentication (`AuthInfo`, `processAuthentication`, `CheckOrigin`) -/

/-- `AuthInfo` from `dht.go`: sent/received auth keys and the authenticated
flag, per peer ID string (a missing map entry reads as `none` / `false`,
matching Go map semantics). -/
structure AuthInfo where
  SentKeys : String → Option (List Nat)
  ReceivedKeys : String → Option (List Nat)
  authenticatedNodes : String → Bool

/-- The maps `NewDHT` allocates: all empty. -/
def emptyAuthInfo : AuthInfo := ⟨fun _ => none, fun _ => none, fun _ => false⟩

/-- Map update (assignment or `delete`). -/
def updKeys (m : String → Option (List Nat)) (k : String) (v : Option (List Nat)) :
    String → Option (List Nat) :=
  fun x => if x == k then v else m x

/-- Boolean-map update (assignment or `delete`, a deleted entry reading `false`). -/
def updFlag (m : String → Bool) (k : String) (v : Bool) : String → Bool :=
  fun x => if x == k then v else m x

/-- Go `bytes.Equal` of a slice against a map lookup: a missing entry is the
nil slice, which `bytes.Equal` treats as empty. -/
def goBytesEqualLookup (k : List Nat) (m : Option (List Nat)) : Bool :=
  k == m.getD []

/-- `packet.ResponseAuth`: success flag and optional auth key. -/
structure ResponseAuth where
  Success : Bool
  AuthUniqueKey : Option (List Nat)

/-- The `BeginAuth` arm of `processAuthentication`: an already-authenticated
sender is answered `Success=false` with a nil key and nothing changes;
otherwise the freshly generated 512-byte random key (`key`, standing for the
`rand.Read` result) is recorded under the sender in `SentKeys` and returned
with `Success=true`. -/
def processBeginAuth (auth : AuthInfo) (sender : String) (key : List Nat) :
    AuthInfo × ResponseAuth :=
  if auth.authenticatedNodes sender then
    (auth, ⟨false, none⟩)
  else
    ({ auth with SentKeys := updKeys auth.SentKeys sender (some key) }, ⟨true, some key⟩)

/-- The `RevokeAuth` arm of `processAuthentication`: drop the sender from
`authenticatedNodes` and acknowledge. -/
def processRevokeAuth (auth : AuthInfo) (sender : String) : AuthInfo × ResponseAuth :=
  ({ auth with authenticatedNodes := updFlag auth.authenticatedNodes sender false },
   ⟨true, none⟩)

/-- `handleAuthResponse` at the initiator, for target `target`: a successful
response with a non-empty key is stored in `ReceivedKeys`; any other response
leaves the state unchanged (the error goes to the caller). -/
def handleAuthResponse (auth : AuthInfo) (target : String) (r : ResponseAuth) : AuthInfo :=
  if (r.AuthUniqueKey.getD []).length != 0 && r.Success then
    { auth with ReceivedKeys := updKeys auth.ReceivedKeys target (some (r.AuthUniqueKey.getD [])) }
  else auth

/-- `processCheckOriginRequest`: answer with the stored `ReceivedKeys` entry
when present, else send nothing; the state is not changed. -/
def processCheckOriginRequest (auth : AuthInfo) (sender : String) : Option (List Nat) :=
  auth.ReceivedKeys sender

/-- `handleCheckOriginResponse`: if the echoed key equals the stored
`SentKeys` entry (`bytes.Equal`, a missing entry being nil), delete the entry
and mark the target authenticated; otherwise do nothing. -/
def handleCheckOriginResponse (auth : AuthInfo) (targetID : String) (key : List Nat) :
    AuthInfo :=
  if goBytesEqualLookup key (auth.SentKeys targetID) then
    { auth with
      SentKeys := updKeys auth.SentKeys targetID none,
      authenticatedNodes := updFlag auth.authenticatedNodes targetID true }
  else auth

/-- The joint authentication state of a node pair: `authA` is the initiator
A's `AuthInfo`, `authB` the responder B's.  A is known to B under the ID
string `"A"` and B to A under `"B"`. -/
structure AuthSys where
  authA : AuthInfo
  authB : AuthInfo

/-- Both nodes start with the maps `NewDHT` allocates. -/
def initAuthSys : AuthSys := ⟨emptyAuthInfo, emptyAuthInfo⟩

/-- One handler execution from `dht.go` at either node.  Random keys and
delivered payloads are event data, so traces cover honest deliveries as well
as corrupted or replayed ones. -/
inductive AuthEvent
  /-- B runs `processAuthentication` on `Auth(Begin)` from sender `s`, with
  `key` the key `rand.Read` produced. -/
  | beginAuthAtB (s : String) (key : List Nat)
  /-- B runs the `RevokeAuth` arm for sender `s`. -/
  | revokeAtB (s : String)
  /-- A runs `handleAuthResponse` for target `t` on a delivered response. -/
  | authRespAtA (t : String) (r : ResponseAuth)
  /-- B runs `handleCheckOriginResponse` for target `t` on a delivered key. -/
  | checkOriginRespAtB (t : String) (key : List Nat)
  /-- The honest `CheckOrigin` round trip for the pair: B's request reaches
  A, A's `processCheckOriginRequest` answers with its stored entry for B (or
  nothing), and B handles the answer with `handleCheckOriginResponse`. -/
  | checkOriginRoundTrip

/-- Apply one event to the pair state. -/
def applyAuthEvent (sys : AuthSys) : AuthEvent → AuthSys
  | .beginAuthAtB s key => { sys with authB := (processBeginAuth sys.authB s key).1 }
  | .revokeAtB s => { sys with authB := (processRevokeAuth sys.authB s).1 }
  | .authRespAtA t r => { sys with authA := handleAuthResponse sys.authA t r }
  | .checkOriginRespAtB t key => { sys with authB := handleCheckOriginResponse sys.authB t key }
  | .checkOriginRoundTrip =>
    match processCheckOriginRequest sys.authA "B" with
    | some key => { sys with authB := handleCheckOriginResponse sys.authB "A" key }
    | none => sys

/-- Run a trace of events from the initial state. -/
def runAuth (evs : List AuthEvent) : AuthSys :=
  evs.foldl applyAuthEvent initAuthSys

/-- Both keys stored and equal. -/
def keysMatch (a b : Option (List Nat)) : Bool :=
  match a, b with
  | some x, some y => x == y
  | _, _ => false

/-- The claimed pair invariant: B's `authenticatedNodes[A]` agrees with
"A's `ReceivedKeys[B]` equals B's `SentKeys[A]`". -/
def authPairInvariant (sys : AuthSys) : Bool :=
  sys.authB.authenticatedNodes "A" ==
    keysMatch (sys.authA.ReceivedKeys "B") (sys.authB.SentKeys "A")

/-! ### Relay (`processRelay`) -/

/-- The relay commands `processRelay` switches on (`packet.CommandType`). -/
inductive RelayCommand
  | startRelay
  | stopRelay
  | unknownCmd

/-- `relay.State` response codes. -/
inductive RelayState
  | started
  | stopped
  | noAuth
  | unknownState
deriving DecidableEq

/-- Modelled from the spec: `relay.AddClient` — add the sender to "the set of
peers this node relays for" (package `relay` is not among the sources). -/
def addClient (clients : List String) (s : String) : List String :=
  if clients.contains s then clients else clients ++ [s]

/-- Modelled from the spec: `relay.RemoveClient` — remove the sender from the
relay set. -/
def removeClient (clients : List String) (s : String) : List String :=
  clients.filter (fun c => c != s)

/-- `processRelay`: an unauthenticated sender is answered with state `NoAuth`
(a response is always sent, never a silent drop) and the relay client set is
untouched; an authenticated sender's command is applied and acknowledged with
`Started` / `Stopped` / `Unknown`.  Result: response state and new client set. -/
def processRelay (auth : AuthInfo) (clients : List String) (cmd : RelayCommand)
    (sender : String) : RelayState × List String :=
  if !auth.authenticatedNodes sender then
    (.noAuth, clients)
  else
    match cmd with
    | .startRelay => (.started, addClient clients sender)
    | .stopRelay => (.stopped, removeClient clients sender)
    | .unknownCmd => (.unknownState, clients)

/-! ### Bucket insertion (`addNode`) -/

/-- The outcome of pinging the head of a full bucket in `addNode`. -/
inductive PingOutcome
  /-- `transport.SendRequest` itself failed. -/
  | sendError
  /-- the head answered within `PingTimeout`. -/
  | responded
  /-- the ping timed out after `PingTimeout`. -/
  | timedOut

/-- The bucket update `addNode` performs for a contact that is not already in
its bucket (an existing contact is only marked fresh): a full bucket pings
its least-recently-seen head and either keeps it, dropping the new contact
(ping answered), or evicts it and appends the new contact at the tail (ping
timed out or the send failed); a bucket with room appends at the tail. -/
def addNodeBucket (bucket : List Ref) (n : Ref) (ping : PingOutcome) : List Ref :=
  if bucket.length == MaxContactsInBucket then
    match ping with
    | .sendError => (bucket ++ [n]).drop 1
    | .responded => bucket
    | .timedOut => bucket.drop 1 ++ [n]
  else bucket ++ [n]

/-! ### `Get` / `FindNode` key validation -/

/-- The DHT state `Get`/`FindNode` can read or change: the content store and
the routing tables. -/
structure DhtState where
  storeData : List (List Nat × List Nat)
  tables : List (List (List Ref))

/-- `store.Retrieve`. -/
def retrieve (st : List (List Nat × List Nat)) (key : List Nat) : Option (List Nat) :=
  (st.find? (fun p => p.1 == key)).map (fun p => p.2)

/-- The network-facing parts of `Get`/`FindNode`, abstracted: the iterate
loops (which contact peers, may update the state and may fail), the local
origin hash, the closest-contact lookup and the proxy count. -/
structure DhtEnv where
  iterateFindValue : DhtState → List Nat → Except String (Option (List Nat)) × DhtState
  iterateFindNode : DhtState → List Nat → Except String (List Ref) × DhtState
  originHash : List Nat
  closestContact : DhtState → List Nat → Option Ref
  proxyCount : Nat

/-- `Get`: decode the base58 key, reject a decode that is not exactly
`MaxContactsInBucket` (20) bytes with an "invalid key" error, else try the
local store and fall back to `IterateFindValue`.
Result: value, exists flag, error, post-state. -/
def Get (env : DhtEnv) (st : DhtState) (decode : String → List Nat) (key : String) :
    Option (List Nat) × Bool × Option String × DhtState :=
  let keyBytes := decode key
  if keyBytes.length ≠ MaxContactsInBucket then
    (none, false, some "invalid key", st)
  else
    match retrieve st.storeData keyBytes with
    | some v => (some v, true, none, st)
    | none =>
      match env.iterateFindValue st keyBytes with
      | (.error e, st') => (none, false, some e, st')
      | (.ok v, st') => (v, v.isSome, none, st')

/-- `FindNode`: the same key-length guard, then the origin check, the local
closest contact, the proxy shortcut (a synthetic node carrying the target
hash), and finally `IterateFindNode` scanning the closest list for a hash
match (the loop keeps the last match).  A found node is represented by its
ID hash.  Result: node, exists flag, error, post-state. -/
def FindNode (env : DhtEnv) (st : DhtState) (decode : String → List Nat) (key : String) :
    Option Ref × Bool × Option String × DhtState :=
  let keyBytes := decode key
  if keyBytes.length ≠ MaxContactsInBucket then
    (none, false, some "invalid key", st)
  else if env.originHash == keyBytes then
    (some env.originHash, true, none, st)
  else
    match env.closestContact st keyBytes with
    | some r =>
      if r == keyBytes then (some r, true, none, st)
      else if 0 < env.proxyCount then (some keyBytes, true, none, st)
      else
        match env.iterateFindNode st keyBytes with
        | (.error e, st') => (none, false, some e, st')
        | (.ok closest, st') =>
          match (closest.filter (fun c => c == keyBytes)).getLast? with
          | some r => (some r, true, none, st')
          | none => (none, false, none, st')
    | none =>
      if 0 < env.proxyCount then (some keyBytes, true, none, st)
      else
        match env.iterateFindNode st keyBytes with
        | (.error e, st') => (none, false, some e, st')
        | (.ok closest, st') =>
          match (closest.filter (fun c => c == keyBytes)).getLast? with
          | some r => (some r, true, none, st')
          | none => (none, false, none, st')

/-! ## Discovery bootstrap (`network/controller/bootstrap`) -/

/-- An active node as `checkActiveNode` reads it: `ID()` and `ShortID()`. -/
structure NodeRec where
  id : Ref
  shortID : Nat

/-- Modelled from the spec: `NodeKeeper.GetActiveNode` — look up a known
active node by NodeID (the `nodenetwork` package is not among the sources). -/
def getActiveNode (known : List NodeRec) (r : Ref) : Option NodeRec :=
  known.find? (fun n => n.id == r)

/-- Modelled from the spec: `NodeKeeper.GetActiveNodeByShortID`. -/
def getActiveNodeByShortID (known : List NodeRec) (sid : Nat) : Option NodeRec :=
  known.find? (fun n => n.shortID == sid)

/-- `checkActiveNode`: a received node collides when its NodeID, or else its
ShortID, is already taken by a known active node. -/
def checkActiveNode (known : List NodeRec) (n : NodeRec) : Except String Unit :=
  match getActiveNode known n.id with
  | some _ => .error "Node ID collision"
  | none =>
    match getActiveNodeByShortID known n.shortID with
    | some _ => .error "Short ID collision"
    | none => .ok ()

/-- The per-node check loop of `BootstrapDiscovery`. -/
def checkAllReceived (known : List NodeRec) : List NodeRec → Except String Unit
  | [] => .ok ()
  | n :: rest =>
    match checkActiveNode known n with
    | .error e => .error e
    | .ok _ => checkAllReceived known rest

/-- The active-node installation at the end of `BootstrapDiscovery`: every
received node is checked against the known active nodes, the first collision
aborting with an error before `NodeKeeper.AddActiveNodes` runs; only when
all checks pass are the received nodes added (in one call, after the loop). -/
def bootstrapAddReceived (known : List NodeRec) (received : List NodeRec) :
    Except String (List NodeRec) :=
  match checkAllReceived known received with
  | .error e => .error e
  | .ok _ => .ok (known ++ received)

/-! ## Auxiliary definitions used by the theorems -/

/-- The invariant that every peer a node has marked authenticated has had its
`SentKeys` entry deleted. -/
def sentKeyCleared (auth : AuthInfo) : Prop :=
  ∀ s, auth.authenticatedNodes s = true → auth.SentKeys s = none

/-- An honest authentication run of the pair (A, B): B answers A's
`Auth(Begin)` with the key `[1, 2]`, A records it, and the `CheckOrigin`
round trip completes. -/
def c2Trace : List AuthEvent :=
  [.beginAuthAtB "A" [1, 2], .authRespAtA "B" ⟨true, some [1, 2]⟩, .checkOriginRoundTrip]

/-- Twenty contacts, each strictly closer to the key `[0]` than the local
node `[255]` is: the expiration score of `[0]` is exactly 20. -/
def contacts20 : List (List Nat) :=
  (List.range 20).map (fun i => [i + 1])

/-- A coordinator environment whose active virtual node set has exactly one
member. -/
def envOneVirtual : CoordEnv :=
  { virtuals := fun _ => .ok [[7]]
    lights := fun _ => .ok []
    heavies := fun _ => .ok []
    currentPulse := 5
    currentEntropy := [0]
    trackerEntropy := fun _ => .error "pulse not found"
    jetTreeFind := fun _ o => o
    jetPrefix := fun _ => [] }

/-- A coordinator environment with four active virtual nodes and one heavy. -/
def envFour : CoordEnv :=
  { virtuals := fun _ => .ok [[1], [2], [3], [4]]
    lights := fun _ => .ok []
    heavies := fun _ => .ok [[9]]
    currentPulse := 5
    currentEntropy := [0]
    trackerEntropy := fun _ => .error "pulse not found"
    jetTreeFind := fun _ o => o
    jetPrefix := fun _ => [] }

/-- A concrete object record ID. -/
def obj0 : RecordID := ⟨0, [3]⟩

/-! # Theorems -/

/-! ## `circleXOR` (claim C6) -/

theorem circleXOR_length (value src : List Nat) :
    (circleXOR value src).length = value.length := by
  simp [circleXOR]

theorem circleXOR_getD (value src : List Nat) (i : Nat) (h : i < value.length) :
    (circleXOR value src).getD i 0 = value.getD i 0 ^^^ src.getD (i % src.length) 0 := by
  unfold circleXOR
  rw [List.getD_eq_getElem _ _ (by simpa using h)]
  simp

theorem circleXOR_involutive (value src : List Nat) :
    circleXOR (circleXOR value src) src = value := by
  apply List.ext_getElem
  · simp [circleXOR]
  · intro i h1 h2
    have hi : i < value.length := h2
    have h3 : i < (circleXOR value src).length := by rwa [circleXOR_length]
    calc (circleXOR (circleXOR value src) src)[i]
        = (circleXOR value src).getD i 0 ^^^ src.getD (i % src.length) 0 := by
            rw [← List.getD_eq_getElem]
            exact circleXOR_getD _ _ _ h3
      _ = (value.getD i 0 ^^^ src.getD (i % src.length) 0) ^^^ src.getD (i % src.length) 0 := by
            rw [circleXOR_getD _ _ _ hi]
      _ = value.getD i 0 := Nat.xor_cancel_right _ _
      _ = value[i] := List.getD_eq_getElem _ _ hi

/-! ## Relay authorization (claim C3) -/

/-- C3: a Relay packet (StartRelay, StopRelay or any other command) whose
sender is not marked authenticated is answered with state `NoAuth` — the
request is not silently dropped — and the relay client set is unchanged;
relay commands act only for authenticated senders. -/
theorem processRelay_noAuth (auth : AuthInfo) (clients : List String)
    (cmd : RelayCommand) (sender : String)
    (h : auth.authenticatedNodes sender = false) :
    processRelay auth clients cmd sender = (RelayState.noAuth, clients) := by
  simp [processRelay, h]

/-- Witness for C3 at a concrete unauthenticated sender. -/
theorem processRelay_noAuth_witness :
    processRelay emptyAuthInfo ["p"] RelayCommand.startRelay "s" =
      (RelayState.noAuth, ["p"]) :=
  processRelay_noAuth emptyAuthInfo ["p"] RelayCommand.startRelay "s" rfl

/-! ## Bucket insertion (claim C7) -/

/-- C7: inserting a new contact into a full bucket (K = 20 contacts) pings
the head: if the head responds the new contact is dropped and the bucket is
unchanged; if the ping times out the head is evicted and the new contact
appended at the tail; for every ping outcome (including a failed send) the
bucket stays at exactly K contacts. -/
theorem addNode_fullBucket (bucket : List Ref) (n : Ref)
    (h : bucket.length = MaxContactsInBucket) :
    addNodeBucket bucket n .responded = bucket ∧
    addNodeBucket bucket n .timedOut = bucket.drop 1 ++ [n] ∧
    ∀ ping, (addNodeBucket bucket n ping).length = MaxContactsInBucket := by
  refine ⟨by simp [addNodeBucket, h], by simp [addNodeBucket, h], ?_⟩
  intro ping
  cases ping <;> simp [addNodeBucket, h, MaxContactsInBucket]

/-- Witness for C7 at a concrete full bucket. -/
theorem addNode_fullBucket_witness :
    addNodeBucket (List.replicate 20 ([0] : Ref)) [1] .responded =
      List.replicate 20 ([0] : Ref) :=
  (addNode_fullBucket (List.replicate 20 ([0] : Ref)) [1] (by decide)).1

/-! ## Invalid keys in `Get` / `FindNode` (claim C9) -/

/-- C9: for every key whose base58 decoding is not exactly 20 bytes
(`MaxContactsInBucket`), `Get` and `FindNode` return an "invalid key" error
with an absent result and a false exists-flag, and leave the content store
and the routing tables (the whole DHT state) unchanged. -/
theorem get_findNode_invalid_key (env : DhtEnv) (st : DhtState)
    (decode : String → List Nat) (key : String)
    (h : (decode key).length ≠ MaxContactsInBucket) :
    Get env st decode key = (none, false, some "invalid key", st) ∧
    FindNode env st decode key = (none, false, some "invalid key", st) := by
  constructor
  · simp [Get, h]
  · simp [FindNode, h]

/-- Witness for C9 at a concrete short key. -/
theorem get_findNode_invalid_key_witness :
    Get ⟨fun st _ => (.ok none, st), fun st _ => (.ok [], st), [], fun _ _ => none, 0⟩
        ⟨[], []⟩ (fun _ => [1, 2]) "k" =
      (none, false, some "invalid key", ⟨[], []⟩) :=
  (get_findNode_invalid_key _ _ _ _ (by decide)).1

/-! ## `Auth(Begin)` from an authenticated sender (claim C10) -/

/-- C10: `processAuthentication` on `Auth(Begin)` answers an
already-authenticated sender with `Success=false` and a nil key and leaves
`SentKeys` and `authenticatedNodes` (the whole auth state) unchanged; only
for a sender not yet authenticated is the freshly generated 512-byte key
recorded under the sender in `SentKeys` and returned with `Success=true`. -/
theorem processBeginAuth_cases (auth : AuthInfo) (sender : String) (key : List Nat)
    (_hkey : key.length = 512) :
    (auth.authenticatedNodes sender = true →
      processBeginAuth auth sender key = (auth, ⟨false, none⟩)) ∧
    (auth.authenticatedNodes sender = false →
      (processBeginAuth auth sender key).1.SentKeys sender = some key ∧
      (processBeginAuth auth sender key).1.ReceivedKeys = auth.ReceivedKeys ∧
      (processBeginAuth auth sender key).1.authenticatedNodes = auth.authenticatedNodes ∧
      (processBeginAuth auth sender key).2 = ⟨true, some key⟩) := by
  constructor
  · intro h
    simp [processBeginAuth, h]
  · intro h
    refine ⟨?_, ?_, ?_, ?_⟩ <;> simp [processBeginAuth, h, updKeys]

/-- Witness for C10: an authenticated sender is refused with no state change. -/
theorem processBeginAuth_cases_witness :
    processBeginAuth
        { emptyAuthInfo with
          authenticatedNodes := updFlag emptyAuthInfo.authenticatedNodes "s" true }
        "s" (List.replicate 512 7) =
      ({ emptyAuthInfo with
         authenticatedNodes := updFlag emptyAuthInfo.authenticatedNodes "s" true },
       ⟨false, none⟩) :=
  (processBeginAuth_cases _ "s" (List.replicate 512 7) (List.length_replicate 512 7)).1 rfl

/-! ## Discovery bootstrap collisions (claim C8) -/

theorem checkActiveNode_collision (known : List NodeRec) (n : NodeRec)
    (h : (∃ m ∈ known, m.id = n.id) ∨ (∃ m ∈ known, m.shortID = n.shortID)) :
    ∃ e, checkActiveNode known n = .error e := by
  unfold checkActiveNode getActiveNode getActiveNodeByShortID
  cases hf : known.find? (fun m => m.id == n.id) with
  | some m => exact ⟨_, rfl⟩
  | none =>
    cases hg : known.find? (fun m => m.shortID == n.shortID) with
    | some m => exact ⟨_, rfl⟩
    | none =>
      exfalso
      rcases h with ⟨m, hm, hid⟩ | ⟨m, hm, hsid⟩
      · have := List.find?_eq_none.mp hf m hm
        simp [hid] at this
      · have := List.find?_eq_none.mp hg m hm
        simp [hsid] at this

theorem checkAllReceived_collision (known : List NodeRec) (received : List NodeRec)
    (h : ∃ n ∈ received,
      (∃ m ∈ known, m.id = n.id) ∨ (∃ m ∈ known, m.shortID = n.shortID)) :
    ∃ e, checkAllReceived known received = .error e := by
  induction received with
  | nil => simp at h
  | cons a rest ih =>
    rcases h with ⟨n, hn, hcol⟩
    rcases List.mem_cons.mp hn with rfl | hmem
    · obtain ⟨e, he⟩ := checkActiveNode_collision known n hcol
      exact ⟨e, by simp [checkAllReceived, he]⟩
    · cases hc : checkActiveNode known a with
      | error e => exact ⟨e, by simp [checkAllReceived, hc]⟩
      | ok _ =>
        obtain ⟨e, he⟩ := ih ⟨n, hmem, hcol⟩
        exact ⟨e, by simp [checkAllReceived, hc, he]⟩

/-- C8: when a received active node carries a NodeID or a ShortID that a
known active node already holds, `BootstrapDiscovery` fails with a collision
error; the error is raised by the check loop that runs before
`NodeKeeper.AddActiveNodes`, so none of the received nodes are added and the
join is aborted. -/
theorem bootstrapDiscovery_collision (known : List NodeRec) (received : List NodeRec)
    (h : ∃ n ∈ received,
      (∃ m ∈ known, m.id = n.id) ∨ (∃ m ∈ known, m.shortID = n.shortID)) :
    ∃ e, bootstrapAddReceived known received = .error e := by
  obtain ⟨e, he⟩ := checkAllReceived_collision known received h
  exact ⟨e, by simp [bootstrapAddReceived, he]⟩

/-- Witness for C8 at a concrete ShortID collision. -/
theorem bootstrapDiscovery_collision_witness :
    ∃ e, bootstrapAddReceived [⟨[1], 5⟩] [⟨[2], 5⟩] = .error e :=
  bootstrapDiscovery_collision [⟨[1], 5⟩] [⟨[2], 5⟩]
    ⟨⟨[2], 5⟩, by simp, Or.inr ⟨⟨[1], 5⟩, by simp, rfl⟩⟩

/-! ## Authentication pair invariant (claim C2) -/

theorem processBeginAuth_sentKeyCleared (b : AuthInfo) (s : String) (key : List Nat)
    (h : sentKeyCleared b) : sentKeyCleared (processBeginAuth b s key).1 := by
  intro x hx
  by_cases hs : b.authenticatedNodes s = true
  · simp only [processBeginAuth, hs, if_true] at hx ⊢
    exact h x hx
  · simp only [processBeginAuth, hs, if_false, Bool.false_eq_true] at hx ⊢
    simp only [updKeys]
    by_cases hxs : (x == s) = true
    · exfalso
      rw [eq_of_beq hxs] at hx
      exact hs hx
    · simp only [hxs, if_false, Bool.false_eq_true]
      exact h x hx

theorem processRevokeAuth_sentKeyCleared (b : AuthInfo) (s : String)
    (h : sentKeyCleared b) : sentKeyCleared (processRevokeAuth b s).1 := by
  intro x hx
  simp only [processRevokeAuth, updFlag] at hx ⊢
  by_cases hxs : (x == s) = true
  · simp [hxs] at hx
  · simp only [hxs, if_false, Bool.false_eq_true] at hx
    exact h x hx

theorem handleCheckOriginResponse_sentKeyCleared (b : AuthInfo) (t : String)
    (key : List Nat) (h : sentKeyCleared b) :
    sentKeyCleared (handleCheckOriginResponse b t key) := by
  intro x hx
  by_cases hm : goBytesEqualLookup key (b.SentKeys t) = true
  · simp only [handleCheckOriginResponse, hm, if_true] at hx ⊢
    simp only [updKeys, updFlag] at hx ⊢
    by_cases hxt : (x == t) = true
    · simp [hxt]
    · simp only [hxt, if_false, Bool.false_eq_true] at hx ⊢
      exact h x hx
  · simp only [handleCheckOriginResponse, hm, if_false, Bool.false_eq_true] at hx ⊢
    exact h x hx

theorem applyAuthEvent_sentKeyCleared (sys : AuthSys) (e : AuthEvent)
    (h : sentKeyCleared sys.authB) : sentKeyCleared (applyAuthEvent sys e).authB := by
  cases e with
  | beginAuthAtB s key => exact processBeginAuth_sentKeyCleared _ s key h
  | revokeAtB s => exact processRevokeAuth_sentKeyCleared _ s h
  | authRespAtA t r => exact h
  | checkOriginRespAtB t key => exact handleCheckOriginResponse_sentKeyCleared _ t key h
  | checkOriginRoundTrip =>
    simp only [applyAuthEvent]
    cases hreq : processCheckOriginRequest sys.authA "B" with
    | none => exact h
    | some key => exact handleCheckOriginResponse_sentKeyCleared _ "A" key h

theorem foldl_sentKeyCleared : ∀ (evs : List AuthEvent) (sys : AuthSys),
    sentKeyCleared sys.authB → sentKeyCleared (evs.foldl applyAuthEvent sys).authB := by
  intro evs
  induction evs with
  | nil => intro sys h; simpa using h
  | cons e rest ih =>
    intro sys h
    simpa using ih _ (applyAuthEvent_sentKeyCleared sys e h)

theorem authSetOnlyByEcho (sys : AuthSys) (e : AuthEvent) (x : String)
    (h0 : sys.authB.authenticatedNodes x = false)
    (h1 : (applyAuthEvent sys e).authB.authenticatedNodes x = true) :
    ∃ key, goBytesEqualLookup key (sys.authB.SentKeys x) = true ∧
      (e = .checkOriginRespAtB x key ∨
        (x = "A" ∧ e = .checkOriginRoundTrip ∧
         processCheckOriginRequest sys.authA "B" = some key)) := by
  cases e with
  | beginAuthAtB s key =>
    exfalso
    by_cases hs : sys.authB.authenticatedNodes s = true <;>
      simp only [applyAuthEvent, processBeginAuth, hs, if_true, if_false,
        Bool.false_eq_true] at h1 <;>
      rw [h0] at h1 <;> exact Bool.false_ne_true h1
  | revokeAtB s =>
    exfalso
    simp only [applyAuthEvent, processRevokeAuth, updFlag] at h1
    by_cases hxs : (x == s) = true
    · simp [hxs] at h1
    · simp only [hxs, if_false, Bool.false_eq_true] at h1
      rw [h0] at h1
      exact Bool.false_ne_true h1
  | authRespAtA t r =>
    exfalso
    simp only [applyAuthEvent] at h1
    rw [h0] at h1
    exact Bool.false_ne_true h1
  | checkOriginRespAtB t key =>
    by_cases hm : goBytesEqualLookup key (sys.authB.SentKeys t) = true
    · simp only [applyAuthEvent, handleCheckOriginResponse, hm, if_true, updFlag] at h1
      by_cases hxt : (x == t) = true
      · have hx : x = t := eq_of_beq hxt
        subst hx
        exact ⟨key, hm, Or.inl rfl⟩
      · exfalso
        simp only [hxt, if_false, Bool.false_eq_true] at h1
        rw [h0] at h1
        exact Bool.false_ne_true h1
    · exfalso
      simp only [applyAuthEvent, handleCheckOriginResponse, hm, if_false,
        Bool.false_eq_true] at h1
      rw [h0] at h1
      exact Bool.false_ne_true h1
  | checkOriginRoundTrip =>
    cases hreq : processCheckOriginRequest sys.authA "B" with
    | none =>
      exfalso
      simp only [applyAuthEvent, hreq] at h1
      rw [h0] at h1
      exact Bool.false_ne_true h1
    | some key =>
      simp only [applyAuthEvent, hreq] at h1
      by_cases hm : goBytesEqualLookup key (sys.authB.SentKeys "A") = true
      · simp only [handleCheckOriginResponse, hm, if_true, updFlag] at h1
        by_cases hxa : (x == "A") = true
        · have hx : x = "A" := eq_of_beq hxa
          subst hx
          exact ⟨key, hm, Or.inr ⟨rfl, rfl, rfl⟩⟩
        · exfalso
          simp only [hxa, if_false, Bool.false_eq_true] at h1
          rw [h0] at h1
          exact Bool.false_ne_true h1
      · exfalso
        simp only [handleCheckOriginResponse, hm, if_false, Bool.false_eq_true] at h1
        rw [h0] at h1
        exact Bool.false_ne_true h1

/-- C2 counterexample: after the honest echo-key handshake of `c2Trace`, B
has marked A authenticated but has deleted `SentKeys[A]`, so B's
`authenticatedNodes[A]` is true while A's `ReceivedKeys[B]` no longer equals
any stored `SentKeys[A]` — the claimed biconditional fails at this reachable
state. -/
theorem authPairInvariant_counterexample :
    authPairInvariant (runAuth c2Trace) = false ∧
    (runAuth c2Trace).authB.authenticatedNodes "A" = true := by
  constructor <;> decide

/-- C2 (amended): in every reachable state, a peer B has marked
authenticated has its `SentKeys` entry deleted (so the claimed biconditional
with the *current* `SentKeys` cannot hold after success); and B flips a peer
to authenticated only by handling a `CheckOrigin` response whose echoed key
equals B's then-stored `SentKeys` entry (`bytes.Equal`) — in particular, in
the honest round trip, only when A echoes the key it recorded from B. -/
theorem auth_roundTrip_invariant :
    (∀ evs x, (runAuth evs).authB.authenticatedNodes x = true →
      (runAuth evs).authB.SentKeys x = none) ∧
    (∀ sys e x, sys.authB.authenticatedNodes x = false →
      (applyAuthEvent sys e).authB.authenticatedNodes x = true →
      ∃ key, goBytesEqualLookup key (sys.authB.SentKeys x) = true ∧
        (e = .checkOriginRespAtB x key ∨
          (x = "A" ∧ e = .checkOriginRoundTrip ∧
           processCheckOriginRequest sys.authA "B" = some key))) := by
  constructor
  · intro evs x
    exact foldl_sentKeyCleared evs initAuthSys
      (by intro s hs; simp [initAuthSys, emptyAuthInfo] at hs) x
  · exact authSetOnlyByEcho

/-- Witness for C2 (amended) on concrete runs: the invariant applied to the
honest trace, and the step characterization applied to a matching echo. -/
theorem auth_roundTrip_invariant_witness :
    (runAuth c2Trace).authB.SentKeys "A" = none ∧
    ∃ key, goBytesEqualLookup key
        ((runAuth [AuthEvent.beginAuthAtB "A" [9]]).authB.SentKeys "A") = true ∧
      (AuthEvent.checkOriginRespAtB "A" [9] = AuthEvent.checkOriginRespAtB "A" key ∨
        ("A" = "A" ∧
         AuthEvent.checkOriginRespAtB "A" [9] = AuthEvent.checkOriginRoundTrip ∧
         processCheckOriginRequest (runAuth [AuthEvent.beginAuthAtB "A" [9]]).authA "B" =
           some key)) :=
  ⟨auth_roundTrip_invariant.1 c2Trace "A" (by decide),
   auth_roundTrip_invariant.2 (runAuth [AuthEvent.beginAuthAtB "A" [9]])
     (AuthEvent.checkOriginRespAtB "A" [9]) "A" (by decide) (by decide)⟩

/-! ## Adaptive expiration (claim C1) -/

/-- C1 counterexample: with twenty known contacts all at least as close to
the key as the local node the score is exactly K = 20, yet the expiration is
not the base `ExpirationTime`: the code takes the lengthening branch for
`score == K` (its guard is `score > K`, not `score >= K`) and multiplies by
`int64(math.Exp(1)) = 2` (and by a stray extra `time.Second`). -/
theorem getExpirationTime_score_eq_K :
    scoreFor contacts20 [255] [0] = 20 ∧
    getExpirationTime contacts20 [255] [0] defaultExpirationNs ≠ defaultExpirationNs := by
  constructor <;> decide

theorem expFloor_mono_le20 : ∀ b < 21, ∀ a < 21, a ≤ b → expFloor a ≤ expFloor b := by
  decide

/-- C1 (amended): `getExpirationTime` treats score 0 as 1 and returns the
base TTL exactly when `score > K`; for `score ≤ K` it adds the int64-wrapped
product `10^9 · (ExpirationTime_ns · ⌊exp(K div score)⌋)` — integer division
inside the exponential — whose multiplier is weakly decreasing in the score
and equals 2 (not 1) at `score = K`. -/
theorem getExpirationTime_amended :
    (∀ ttl score0, MaxContactsInBucket < score0 → getExpirationOffset score0 ttl = ttl) ∧
    (∀ ttl, getExpirationOffset 0 ttl = getExpirationOffset 1 ttl) ∧
    (∀ ttl score0, score0 ≤ MaxContactsInBucket →
      getExpirationOffset score0 ttl =
        int64wrap (1000000000 * int64wrap (ttl * (expirationFactor score0 : Int)))) ∧
    (∀ s t, s ≤ t → expirationFactor t ≤ expirationFactor s) ∧
    expirationFactor MaxContactsInBucket = 2 := by
  have hone : ∀ x : Nat, 1 ≤ (if x == 0 then 1 else x) := by
    intro x
    by_cases hx : (x == 0) = true
    · simp [hx]
    · have : x ≠ 0 := by simpa using hx
      simp only [hx, if_false, Bool.false_eq_true]
      omega
  refine ⟨?_, ?_, ?_, ?_, rfl⟩
  · intro ttl s h
    have hs0 : (s == 0) = false := by
      simp only [beq_eq_false_iff_ne, ne_eq]
      omega
    simp [getExpirationOffset, hs0, h]
  · intro ttl
    rfl
  · intro ttl s h
    unfold getExpirationOffset expirationFactor
    by_cases hs : (s == 0) = true
    · simp [hs, MaxContactsInBucket]
    · have hs' : (s == 0) = false := by simpa using hs
      have hle : ¬ (MaxContactsInBucket < s) := Nat.not_lt.mpr h
      simp [hs', hle]
  · intro s t hst
    unfold expirationFactor
    have hms : (if s == 0 then 1 else s) ≤ (if t == 0 then 1 else t) := by
      by_cases hs : (s == 0) = true
      · simpa [hs] using hone t
      · have hsne : s ≠ 0 := by simpa using hs
        have htne : t ≠ 0 := by omega
        have ht : (t == 0) = false := by simpa using htne
        have hs' : (s == 0) = false := by simpa using hsne
        simpa [hs', ht] using hst
    have h0 : 0 < (if s == 0 then 1 else s) := hone s
    have hdiv : MaxContactsInBucket / (if t == 0 then 1 else t) ≤
        MaxContactsInBucket / (if s == 0 then 1 else s) :=
      Nat.div_le_div_left hms h0
    have hb : MaxContactsInBucket / (if s == 0 then 1 else s) < 21 :=
      Nat.lt_succ_of_le (Nat.div_le_self _ _)
    have ha : MaxContactsInBucket / (if t == 0 then 1 else t) < 21 :=
      Nat.lt_succ_of_le (Nat.div_le_self _ _)
    exact expFloor_mono_le20 _ hb _ ha hdiv

/-- Witness for C1 (amended) at concrete scores. -/
theorem getExpirationTime_amended_witness :
    getExpirationOffset 25 defaultExpirationNs = defaultExpirationNs ∧
    getExpirationOffset 20 defaultExpirationNs =
      int64wrap (1000000000 * int64wrap (defaultExpirationNs * (expirationFactor 20 : Int))) ∧
    expirationFactor 15 ≤ expirationFactor 10 :=
  ⟨getExpirationTime_amended.1 defaultExpirationNs 25 (by decide),
   getExpirationTime_amended.2.2.1 defaultExpirationNs 20 (by decide),
   getExpirationTime_amended.2.2.2.1 10 15 (by decide)⟩

/-! ## Role selection (claims C4 and C5) -/

theorem drawPermAux_perm : ∀ (fuel seed : Nat) (l : List Ref),
    l.length ≤ fuel → List.Perm (drawPermAux fuel seed l) l := by
  intro fuel
  induction fuel with
  | zero =>
    intro seed l h
    have hl : l = [] := List.eq_nil_of_length_eq_zero (Nat.le_zero.mp h)
    subst hl
    simp [drawPermAux]
  | succ n ih =>
    intro seed l h
    cases l with
    | nil => simp [drawPermAux]
    | cons a as =>
      have hrot : List.Perm ((a :: as).rotate (seed % (a :: as).length)) (a :: as) :=
        List.rotate_perm _ _
      cases hr : (a :: as).rotate (seed % (a :: as).length) with
      | nil =>
        exfalso
        have hl := hrot.length_eq
        rw [hr] at hl
        simp at hl
      | cons x xs =>
        rw [hr] at hrot
        have hlen : xs.length ≤ n := by
          have h2 := hrot.length_eq
          simp only [List.length_cons] at h2 h
          omega
        have tail := ih (seed + 1) xs hlen
        have hr' := hr
        simp only [List.length_cons] at hr'
        have step : drawPermAux (n + 1) seed (a :: as) = x :: drawPermAux n (seed + 1) xs := by
          simp [drawPermAux, hr']
        rw [step]
        exact List.Perm.trans (tail.cons x) hrot

theorem drawPerm_perm (seed : Nat) (l : List Ref) : List.Perm (drawPerm seed l) l :=
  drawPermAux_perm l.length seed l (Nat.le_refl _)

theorem sortByID_perm (values : List Ref) : List.Perm (sortByID values) values :=
  List.mergeSort_perm values _

theorem virtualsForObject_ok (env : CoordEnv) (objID : RecordID) (pulse count : Nat)
    (candidates : List Ref) (ent : List Nat)
    (hv : env.virtuals pulse = .ok candidates)
    (hne : candidates ≠ [])
    (hent : entropy env pulse = .ok ent)
    (hcount : count ≤ candidates.length) :
    virtualsForObject env objID pulse count =
      .ok ((drawPerm (entropySeed (circleXOR ent objID.hash))
             (sortByID candidates)).take count) := by
  have hlen : (sortByID candidates).length = candidates.length :=
    (sortByID_perm candidates).length_eq
  have hempty : candidates.isEmpty = false := by
    simp [List.isEmpty_iff, hne]
  have hnot : ¬ ((sortByID candidates).length < count) := by omega
  simp [virtualsForObject, hv, hempty, hent, getRefs, SelectByEntropy, hnot]

/-- C4 (amended): whenever at least `VirtualValidatorCount +
VirtualExecutorCount` = 4 distinct active virtual nodes exist and entropy is
available, `VirtualValidatorsForObject` returns exactly
`VirtualValidatorCount` = 3 node refs — the slots after the first of the
4-candidate entropy draw — and the executor returned by
`VirtualExecutorForObject` (the first drawn slot) is never among them. -/
theorem virtualValidators_skip_executor (env : CoordEnv) (objID : RecordID) (pulse : Nat)
    (candidates : List Ref) (ent : List Nat)
    (hv : env.virtuals pulse = .ok candidates)
    (hnodup : candidates.Nodup)
    (hlen : VirtualValidatorCount + VirtualExecutorCount ≤ candidates.length)
    (hent : entropy env pulse = .ok ent) :
    ∃ ex vals,
      VirtualExecutorForObject env objID pulse = .ok ex ∧
      VirtualValidatorsForObject env objID pulse = .ok vals ∧
      vals.length = VirtualValidatorCount ∧
      ex ∉ vals := by
  have hlen4 : 4 ≤ candidates.length := by
    simpa [VirtualValidatorCount, VirtualExecutorCount] using hlen
  have hperm : List.Perm
      (drawPerm (entropySeed (circleXOR ent objID.hash)) (sortByID candidates))
      candidates := (drawPerm_perm _ _).trans (sortByID_perm _)
  have hpermlen := hperm.length_eq
  have hpermnodup := hperm.nodup_iff.mpr hnodup
  have hne : candidates ≠ [] := by
    intro hc
    rw [hc] at hlen4
    simp at hlen4
  have h1 : virtualsForObject env objID pulse VirtualExecutorCount =
      .ok ((drawPerm (entropySeed (circleXOR ent objID.hash)) (sortByID candidates)).take 1) :=
    virtualsForObject_ok env objID pulse VirtualExecutorCount candidates ent hv hne hent
      (by omega)
  have h4 : virtualsForObject env objID pulse (VirtualValidatorCount + VirtualExecutorCount) =
      .ok ((drawPerm (entropySeed (circleXOR ent objID.hash)) (sortByID candidates)).take 4) :=
    virtualsForObject_ok env objID pulse (VirtualValidatorCount + VirtualExecutorCount)
      candidates ent hv hne hent (by omega)
  cases hp : drawPerm (entropySeed (circleXOR ent objID.hash)) (sortByID candidates) with
  | nil =>
    exfalso
    rw [hp] at hpermlen
    simp at hpermlen
    omega
  | cons p rest =>
    rw [hp] at h1 h4 hpermnodup
    refine ⟨p, rest.take 3, ?_, ?_, ?_, ?_⟩
    · simp [VirtualExecutorForObject, h1]
    · simp only [VirtualValidatorsForObject, h4]
      have ht : (p :: rest).take 4 = p :: rest.take 3 := rfl
      rw [ht]
      simp [VirtualExecutorCount]
    · have hrest : 3 ≤ rest.length := by
        rw [hp] at hpermlen
        simp only [List.length_cons] at hpermlen
        omega
      simp [List.length_take, VirtualValidatorCount]
      omega
    · have hnotmem : p ∉ rest := (List.nodup_cons.mp hpermnodup).1
      intro hmem
      exact hnotmem (List.take_subset 3 rest hmem)

/-- Witness for C4 (amended) at a concrete four-node environment. -/
theorem virtualValidators_skip_executor_witness :
    ∃ ex vals,
      VirtualExecutorForObject envFour obj0 5 = .ok ex ∧
      VirtualValidatorsForObject envFour obj0 5 = .ok vals ∧
      vals.length = VirtualValidatorCount ∧
      ex ∉ vals :=
  virtualValidators_skip_executor envFour obj0 5 [[1], [2], [3], [4]] [0]
    rfl (by decide) (by decide) rfl

theorem getRefs_error_of_short (e : List Nat) (values : List Ref) (count : Nat)
    (h : values.length < count) :
    getRefs e values count = .error "count value should be less than values size" := by
  have hlen : (sortByID values).length = values.length := (sortByID_perm values).length_eq
  simp [getRefs, SelectByEntropy, hlen, h]

/-- C4 counterexample: with exactly one active virtual node (so "active
virtual nodes exist"), `VirtualValidatorsForObject` does not return 3 node
refs: drawing `VirtualValidatorCount + VirtualExecutorCount` = 4 distinct
candidates from a single-node active set fails. -/
theorem virtualValidators_counterexample :
    envOneVirtual.virtuals 5 = .ok [[7]] ∧
    VirtualValidatorsForObject envOneVirtual obj0 5 =
      .error "count value should be less than values size" := by
  refine ⟨rfl, ?_⟩
  have hg : getRefs (circleXOR [0] obj0.hash) [[7]]
      (VirtualValidatorCount + VirtualExecutorCount) =
      .error "count value should be less than values size" :=
    getRefs_error_of_short _ _ _ (by decide)
  simp [VirtualValidatorsForObject, virtualsForObject, envOneVirtual, entropy, hg]

/-- C5: for every role, object, pulse and node, `IsAuthorized` answers
`.ok true` exactly when the node is a member of the list `QueryRole` returns,
and propagates `QueryRole`'s error when it fails. -/
theorem isAuthorized_iff_queryRole (env : CoordEnv) (role : DynamicRole)
    (objID : RecordID) (pulse : Nat) (node : Ref) :
    (∀ nodes, QueryRole env role objID pulse = .ok nodes →
      (IsAuthorized env role objID pulse node = .ok true ↔ node ∈ nodes)) ∧
    (∀ e, QueryRole env role objID pulse = .error e →
      IsAuthorized env role objID pulse node = .error e) := by
  constructor
  · intro nodes h
    simp [IsAuthorized, h]
  · intro e h
    simp [IsAuthorized, h]

theorem queryRole_heavy_envFour :
    QueryRole envFour DynamicRole.heavyExecutor obj0 5 = .ok [[9]] := by
  have hsort : sortByID [[9]] = [[9]] := by
    unfold sortByID
    exact List.mergeSort_singleton _
  simp [QueryRole, Heavy, envFour, entropy, getRefs, SelectByEntropy, hsort, drawPerm,
    drawPermAux, entropySeed]

/-- Witness for C5 at a concrete heavy-role query. -/
theorem isAuthorized_iff_queryRole_witness :
    IsAuthorized envFour DynamicRole.heavyExecutor obj0 5 [9] = .ok true ↔ [9] ∈ [[9]] :=
  (isAuthorized_iff_queryRole envFour DynamicRole.heavyExecutor obj0 5 [9]).1 [[9]]
    queryRole_heavy_envFour

/-- C6: `circleXOR` is length-preserving, computes
`out[i] = value[i] XOR src[i mod len(src)]` byte-wise for non-empty `src`,
and `circleXOR (circleXOR x s) s = x` when `len(x) = k·len(s)`. -/
theorem circleXOR_spec :
    (∀ value src : List Nat, (circleXOR value src).length = value.length) ∧
    (∀ value src : List Nat, src ≠ [] → ∀ i, i < value.length →
      (circleXOR value src).getD i 0 = value.getD i 0 ^^^ src.getD (i % src.length) 0) ∧
    (∀ (x s : List Nat) (k : Nat), s ≠ [] → x.length = k * s.length →
      circleXOR (circleXOR x s) s = x) :=
  ⟨circleXOR_length,
   fun value src _ i hi => circleXOR_getD value src i hi,
   fun x s _ _ _ => circleXOR_involutive x s⟩

/-- Witness for C6 at concrete byte arrays. -/
theorem circleXOR_spec_witness :
    (circleXOR [1, 2, 3, 4] [5, 6]).length = 4 ∧
    (circleXOR [1, 2, 3, 4] [5, 6]).getD 1 0 =
      ([1, 2, 3, 4] : List Nat).getD 1 0 ^^^ ([5, 6] : List Nat).getD (1 % 2) 0 ∧
    circleXOR (circleXOR [1, 2, 3, 4] [5, 6]) [5, 6] = [1, 2, 3, 4] :=
  ⟨circleXOR_spec.1 [1, 2, 3, 4] [5, 6],
   circleXOR_spec.2.1 [1, 2, 3, 4] [5, 6] (by decide) 1 (by decide),
   circleXOR_spec.2.2 [1, 2, 3, 4] [5, 6] 2 (by decide) (by decide)⟩
